import Mathlib

/-!
Shallow embedding of the attendance session engine of the
face-attendance-system repository (util.py, daily_cleanup.py,
generate_report.py, db.py).

The two attendance tables are modelled as lists of rows kept in insertion
order; the AUTO_INCREMENT primary keys are modelled by the id field of each
row together with the nextStudentId / nextStaffId counters of the store.
SQL DATE values are only ever compared for equality by the code, and TIME
values only by their total order, so both are modelled as naturals.
-/

/-- A row of the attendance_students table (db.py): id PK, reg_no, date,
time_in, time_out (nullable). -/
structure StudentSession where
  id : Nat
  reg_no : String
  date : Nat
  time_in : Nat
  time_out : Option Nat
  deriving DecidableEq

/-- The status column of the attendance_staff table. -/
inductive StaffStatus where
  | Present
  | Absent
  deriving DecidableEq

/-- A row of the attendance_staff table (db.py): id PK, staff_id, date, hour,
time_in, time_out (nullable), status. -/
structure StaffRecord where
  id : Nat
  staff_id : String
  date : Nat
  hour : String
  time_in : Nat
  time_out : Option Nat
  status : StaffStatus
  deriving DecidableEq

/-- The session store: the two attendance tables plus the AUTO_INCREMENT
counters of their primary keys. -/
structure Store where
  studentSessions : List StudentSession
  staffRecords : List StaffRecord
  nextStudentId : Nat
  nextStaffId : Nat
  deriving DecidableEq

def emptyStore : Store := ⟨[], [], 0, 0⟩

/-- The WHERE clause `reg_no = %s AND date = %s AND time_out IS NULL` used by
mark_student_entry and mark_student_exit in util.py. -/
def studentOpenFor (reg : String) (d : Nat) (x : StudentSession) : Bool :=
  decide (x.reg_no = reg ∧ x.date = d ∧ x.time_out = none)

/-- The WHERE clause `staff_id = %s AND date = %s AND time_out IS NULL` used by
mark_staff_exit in util.py. -/
def staffOpenFor (staff : String) (d : Nat) (x : StaffRecord) : Bool :=
  decide (x.staff_id = staff ∧ x.date = d ∧ x.time_out = none)

/-- Membership test for the UNIQUE KEY (staff_id, date, hour) of the
attendance_staff table (db.py). -/
def staffHourFor (staff hour : String) (d : Nat) (x : StaffRecord) : Bool :=
  decide (x.staff_id = staff ∧ x.date = d ∧ x.hour = hour)

/-- util.py mark_student_entry: SELECT an open session for (reg_no, today);
if one exists fail, otherwise INSERT a new open row with time_in = now. -/
def mark_student_entry (reg : String) (today now : Nat) (s : Store) :
    (Bool × String) × Store :=
  if (s.studentSessions.filter (studentOpenFor reg today)).isEmpty then
    ((true, "Entry marked."),
      { s with
        studentSessions :=
          s.studentSessions ++ [⟨s.nextStudentId, reg, today, now, none⟩],
        nextStudentId := s.nextStudentId + 1 })
  else
    ((false, "You have already marked ENTRY and have not EXITED yet for today."), s)

/-- The SELECT `... WHERE reg_no AND date AND time_out IS NULL ORDER BY
time_in DESC LIMIT 1` followed by `UPDATE ... SET time_out = now WHERE id = ...`
of util.py mark_student_exit, fused into one list traversal: returns the
time_in of the chosen open row together with the updated table, or none when
no open row exists.  On rows with equal time_in the SQL order is unspecified;
the model closes the most recently inserted of the maxima. -/
def closeLatestStudent (reg : String) (today now : Nat) :
    List StudentSession → Option (Nat × List StudentSession)
  | [] => none
  | x :: xs =>
    match closeLatestStudent reg today now xs with
    | none =>
      if studentOpenFor reg today x then
        some (x.time_in, { x with time_out := some now } :: xs)
      else none
    | some (t, xs') =>
      if studentOpenFor reg today x && decide (t < x.time_in) then
        some (x.time_in, { x with time_out := some now } :: xs)
      else some (t, x :: xs')

/-- util.py mark_student_exit: close the latest open session for
(reg_no, today), or fail when none exists. -/
def mark_student_exit (reg : String) (today now : Nat) (s : Store) :
    (Bool × String) × Store :=
  match closeLatestStudent reg today now s.studentSessions with
  | none =>
    ((false, "No open entry found for today. You have not entered (or already exited)."), s)
  | some (_, l) => ((true, "Exit marked."), { s with studentSessions := l })

/-- util.py mark_staff_entry: INSERT (staff_id, today, hour, now, Present);
the emptiness check models the UNIQUE KEY (staff_id, date, hour) of
attendance_staff, whose violation raises the IntegrityError that the source
turns into the duplicate-hour failure result. -/
def mark_staff_entry (staff hour : String) (today now : Nat) (s : Store) :
    (Bool × String) × Store :=
  if (s.staffRecords.filter (staffHourFor staff hour today)).isEmpty then
    ((true, "Entry for hour marked."),
      { s with
        staffRecords :=
          s.staffRecords ++
            [⟨s.nextStaffId, staff, today, hour, now, none, StaffStatus.Present⟩],
        nextStaffId := s.nextStaffId + 1 })
  else
    ((false, "Already marked entry for this hour today."), s)

/-- The `UPDATE attendance_staff SET time_out = now WHERE staff_id AND date
AND time_out IS NULL ORDER BY time_in DESC LIMIT 1` of util.py
mark_staff_exit, as one list traversal (same tie convention as
closeLatestStudent). -/
def closeLatestStaff (staff : String) (today now : Nat) :
    List StaffRecord → Option (Nat × List StaffRecord)
  | [] => none
  | x :: xs =>
    match closeLatestStaff staff today now xs with
    | none =>
      if staffOpenFor staff today x then
        some (x.time_in, { x with time_out := some now } :: xs)
      else none
    | some (t, xs') =>
      if staffOpenFor staff today x && decide (t < x.time_in) then
        some (x.time_in, { x with time_out := some now } :: xs)
      else some (t, x :: xs')

/-- util.py mark_staff_exit: close the latest open record for
(staff_id, today), or fail when none exists (rows_affected = 0). -/
def mark_staff_exit (staff : String) (today now : Nat) (s : Store) :
    (Bool × String) × Store :=
  match closeLatestStaff staff today now s.staffRecords with
  | none => ((false, "No open entry found for today."), s)
  | some (_, l) => ((true, "Exit marked successfully."), { s with staffRecords := l })

/-- The row transformation of daily_cleanup.py cleanup_staff_open_sessions:
`UPDATE attendance_staff SET status = Absent WHERE date = today AND time_out
IS NULL`. -/
def staffCleanupRow (today : Nat) (r : StaffRecord) : StaffRecord :=
  if r.date = today ∧ r.time_out = none then { r with status := StaffStatus.Absent } else r

/-- daily_cleanup.py cleanup_staff_open_sessions. -/
def cleanup_staff_open_sessions (today : Nat) (s : Store) : Store :=
  { s with staffRecords := s.staffRecords.map (staffCleanupRow today) }

/-- daily_cleanup.py cleanup_student_open_sessions: `DELETE FROM
attendance_students WHERE date = today AND time_out IS NULL`. -/
def cleanup_student_open_sessions (today : Nat) (s : Store) : Store :=
  { s with
    studentSessions :=
      s.studentSessions.filter (fun x => !(decide (x.date = today ∧ x.time_out = none))) }

/-- daily_cleanup.py run_daily_cleanup: staff phase then student phase. -/
def run_daily_cleanup (today : Nat) (s : Store) : Store :=
  cleanup_student_open_sessions today (cleanup_staff_open_sessions today s)

/-- generate_report.py: the attendance_staff rows of the resolved staff
member (`WHERE staff_id = %s`, any date). -/
def staffRecordsFor (staff : String) (s : Store) : List StaffRecord :=
  s.staffRecords.filter (fun x => decide (x.staff_id = staff))

/-- generate_report.py: `SELECT DISTINCT date FROM attendance_staff WHERE
staff_id = %s` (the class_dates list of the source). -/
def class_dates (staff : String) (s : Store) : List Nat :=
  ((staffRecordsFor staff s).map StaffRecord.date).dedup

/-- generate_report.py: `total_classes_held = len(class_dates)`. -/
def total_classes_held (staff : String) (s : Store) : Nat :=
  (class_dates staff s).length

/-- generate_report.py: `SELECT COUNT(DISTINCT date) FROM attendance_students
WHERE reg_no = %s AND date IN (class_dates)`. -/
def classes_attended (reg staff : String) (s : Store) : Nat :=
  ((s.studentSessions.filter
      (fun x => decide (x.reg_no = reg) && decide (x.date ∈ class_dates staff s))).map
    StudentSession.date).dedup.length

/-- generate_report.py: `percentage = classes_attended / total_classes_held *
100 if total_classes_held > 0 else 0.0`, over exact rationals. -/
def attendance_percentage (attended total : Nat) : ℚ :=
  if 0 < total then (attended : ℚ) / (total : ℚ) * 100 else 0

/-- Modelled from the spec wording for total_classes_held, for comparison with
the source definition: the count of all StaffAttendanceRecord rows of the
staff member, each (date, hour) pair counting as one class. -/
def totalClassesHeldSpec (staff : String) (s : Store) : Nat :=
  (staffRecordsFor staff s).length

/-- Modelled from the spec wording for classes_attended: a student session
covers a staff record when it is on the same date and time_in is at most the
staff time_out, or the staff time_out is NULL. -/
def sessionCoversSpec (reg : String) (t : StaffRecord) (u : StudentSession) : Bool :=
  decide (u.reg_no = reg) && decide (u.date = t.date) &&
    (match t.time_out with
     | none => true
     | some v => decide (u.time_in ≤ v))

/-- Modelled from the spec wording for classes_attended, for comparison with
the source definition: the count of distinct (date, hour) pairs of staff
records covered by some session of the student. -/
def classesAttendedSpec (reg staff : String) (s : Store) : Nat :=
  (((staffRecordsFor staff s).filter
      (fun t => s.studentSessions.any (sessionCoversSpec reg t))).map
    (fun t => (t.date, t.hour))).dedup.length

/-- Number of open StudentSession rows for a (reg_no, date) key. -/
def openStudentCount (reg : String) (d : Nat) (s : Store) : Nat :=
  (s.studentSessions.filter (studentOpenFor reg d)).length

/-- Invariant I1: at most one open StudentSession per (reg_no, date). -/
def I1 (s : Store) : Prop := ∀ reg d, openStudentCount reg d s ≤ 1

/-- Number of StaffAttendanceRecord rows for a (staff_id, date, hour) key. -/
def staffHourCount (staff : String) (d : Nat) (hour : String) (s : Store) : Nat :=
  (s.staffRecords.filter (staffHourFor staff hour d)).length

/-- Invariant I2: at most one StaffAttendanceRecord per (staff_id, date, hour). -/
def I2 (s : Store) : Prop := ∀ staff d hour, staffHourCount staff d hour s ≤ 1

/-- The operations of the entry/exit controller and the reconciliation job. -/
inductive Op where
  | studentEntry (reg : String) (today now : Nat)
  | studentExit (reg : String) (today now : Nat)
  | staffEntry (staff hour : String) (today now : Nat)
  | staffExit (staff : String) (today now : Nat)
  | dailyCleanup (today : Nat)

def applyOp (op : Op) (s : Store) : Store :=
  match op with
  | .studentEntry reg today now => (mark_student_entry reg today now s).2
  | .studentExit reg today now => (mark_student_exit reg today now s).2
  | .staffEntry staff hour today now => (mark_staff_entry staff hour today now s).2
  | .staffExit staff today now => (mark_staff_exit staff today now s).2
  | .dailyCleanup today => run_daily_cleanup today s

def applyOps (ops : List Op) (s : Store) : Store :=
  ops.foldl (fun t op => applyOp op t) s

/-- Store with two attendance_staff rows of one staff member on the same
date (distinct hours). -/
def c2Store : Store :=
  ⟨[], [⟨1, "T1", 1, "Hour 1", 1, none, StaffStatus.Present⟩,
        ⟨2, "T1", 1, "Hour 2", 2, none, StaffStatus.Present⟩], 0, 3⟩

/-- Store where the staff record on date 1 was closed at time 10 but the
student entered only at time 20. -/
def c3Store : Store :=
  ⟨[⟨1, "S1", 1, 20, some 30⟩],
   [⟨1, "T1", 1, "Hour 1", 1, some 10, StaffStatus.Present⟩], 2, 2⟩

/-- Store with staff records on four distinct dates and student sessions on
three of them. -/
def c3Scenario : Store :=
  ⟨[⟨1, "S1", 1, 5, some 6⟩, ⟨2, "S1", 2, 5, some 6⟩, ⟨3, "S1", 3, 5, none⟩],
   [⟨1, "T1", 1, "Hour 1", 1, some 4, StaffStatus.Present⟩,
    ⟨2, "T1", 2, "Hour 1", 1, some 4, StaffStatus.Present⟩,
    ⟨3, "T1", 3, "Hour 1", 1, some 4, StaffStatus.Present⟩,
    ⟨4, "T1", 4, "Hour 1", 1, some 4, StaffStatus.Present⟩], 4, 5⟩

/-- Store with two open staff records where the row created later (id 2,
later list position) has the earlier time_in. -/
def c8Store : Store :=
  ⟨[], [⟨1, "T1", 7, "Hour 1", 2, none, StaffStatus.Present⟩,
        ⟨2, "T1", 7, "Hour 2", 1, none, StaffStatus.Present⟩], 0, 3⟩

/-- Store with one closed student session and one closed staff record, so no
identity has an open session. -/
def c5Store : Store :=
  ⟨[⟨1, "S1", 1, 10, some 20⟩],
   [⟨1, "T1", 1, "Hour 1", 10, some 20, StaffStatus.Present⟩], 2, 2⟩

/-- Store with one open student session, one closed one, one open staff
record and one closed one, spread over two dates. -/
def c7Store : Store :=
  ⟨[⟨1, "S1", 1, 10, none⟩, ⟨2, "S1", 2, 10, some 20⟩],
   [⟨1, "T1", 2, "Hour 1", 10, none, StaffStatus.Present⟩,
    ⟨2, "T1", 2, "Hour 2", 30, some 40, StaffStatus.Present⟩], 3, 3⟩

/-! ## Helper lemmas -/

theorem length_filter_filter_le {α : Type} (p q : α → Bool) (l : List α) :
    ((l.filter q).filter p).length ≤ (l.filter p).length := by
  induction l with
  | nil => exact Nat.le_refl 0
  | cons x xs ih =>
    by_cases hq : q x = true
    · by_cases hp : p x = true
      · rw [List.filter_cons_of_pos hq, List.filter_cons_of_pos hp,
            List.filter_cons_of_pos hp, List.length_cons, List.length_cons]
        exact Nat.succ_le_succ ih
      · rw [List.filter_cons_of_pos hq, List.filter_cons_of_neg hp,
            List.filter_cons_of_neg hp]
        exact ih
    · by_cases hp : p x = true
      · rw [List.filter_cons_of_neg hq, List.filter_cons_of_pos hp, List.length_cons]
        exact Nat.le_succ_of_le ih
      · rw [List.filter_cons_of_neg hq, List.filter_cons_of_neg hp]
        exact ih

theorem length_filter_map_eq {α : Type} (f : α → α) (p : α → Bool)
    (hp : ∀ x, p (f x) = p x) (l : List α) :
    ((l.map f).filter p).length = (l.filter p).length := by
  induction l with
  | nil => rfl
  | cons x xs ih =>
    by_cases h : p x = true
    · rw [List.map_cons, List.filter_cons_of_pos (by rw [hp]; exact h),
          List.filter_cons_of_pos h, List.length_cons, List.length_cons, ih]
    · rw [List.map_cons, List.filter_cons_of_neg (by rw [hp]; exact h),
          List.filter_cons_of_neg h, ih]

theorem closeLatestStudent_none_iff (reg : String) (d now : Nat)
    (l : List StudentSession) :
    closeLatestStudent reg d now l = none ↔
      ∀ y ∈ l, studentOpenFor reg d y = false := by
  induction l with
  | nil => simp [closeLatestStudent]
  | cons x xs ih =>
    rw [closeLatestStudent]
    cases hx : closeLatestStudent reg d now xs with
    | none =>
      have hxs : ∀ y ∈ xs, studentOpenFor reg d y = false := ih.mp hx
      by_cases hopen : studentOpenFor reg d x = true
      · constructor
        · intro hnone
          rw [if_pos hopen] at hnone
          exact Option.noConfusion hnone
        · intro hall
          have hfalse := hall x (List.mem_cons_self x xs)
          rw [hfalse] at hopen
          exact Bool.noConfusion hopen
      · have hopen' : studentOpenFor reg d x = false := Bool.eq_false_iff.mpr hopen
        constructor
        · intro _ y hy
          rcases List.mem_cons.mp hy with h | h
          · rw [h]; exact hopen'
          · exact hxs y h
        · intro _
          rw [if_neg hopen]
    | some p =>
      obtain ⟨t, xs'⟩ := p
      constructor
      · intro hnone
        dsimp only at hnone
        by_cases hcond : (studentOpenFor reg d x && decide (t < x.time_in)) = true
        · rw [if_pos hcond] at hnone
          exact Option.noConfusion hnone
        · rw [if_neg hcond] at hnone
          exact Option.noConfusion hnone
      · intro hall
        have hxs : ∀ y ∈ xs, studentOpenFor reg d y = false :=
          fun y hy => hall y (List.mem_cons_of_mem x hy)
        rw [ih.mpr hxs] at hx
        exact Option.noConfusion hx

theorem closeLatestStaff_none_iff (staff : String) (d now : Nat)
    (l : List StaffRecord) :
    closeLatestStaff staff d now l = none ↔
      ∀ y ∈ l, staffOpenFor staff d y = false := by
  induction l with
  | nil => simp [closeLatestStaff]
  | cons x xs ih =>
    rw [closeLatestStaff]
    cases hx : closeLatestStaff staff d now xs with
    | none =>
      have hxs : ∀ y ∈ xs, staffOpenFor staff d y = false := ih.mp hx
      by_cases hopen : staffOpenFor staff d x = true
      · constructor
        · intro hnone
          rw [if_pos hopen] at hnone
          exact Option.noConfusion hnone
        · intro hall
          have hfalse := hall x (List.mem_cons_self x xs)
          rw [hfalse] at hopen
          exact Bool.noConfusion hopen
      · have hopen' : staffOpenFor staff d x = false := Bool.eq_false_iff.mpr hopen
        constructor
        · intro _ y hy
          rcases List.mem_cons.mp hy with h | h
          · rw [h]; exact hopen'
          · exact hxs y h
        · intro _
          rw [if_neg hopen]
    | some p =>
      obtain ⟨t, xs'⟩ := p
      constructor
      · intro hnone
        dsimp only at hnone
        by_cases hcond : (staffOpenFor staff d x && decide (t < x.time_in)) = true
        · rw [if_pos hcond] at hnone
          exact Option.noConfusion hnone
        · rw [if_neg hcond] at hnone
          exact Option.noConfusion hnone
      · intro hall
        have hxs : ∀ y ∈ xs, staffOpenFor staff d y = false :=
          fun y hy => hall y (List.mem_cons_of_mem x hy)
        rw [ih.mpr hxs] at hx
        exact Option.noConfusion hx

theorem closeLatestStudent_some {reg : String} {d now : Nat}
    {l : List StudentSession} {t : Nat} {l' : List StudentSession}
    (h : closeLatestStudent reg d now l = some (t, l')) :
    ∃ l₁ x l₂, l = l₁ ++ x :: l₂ ∧
      l' = l₁ ++ { x with time_out := some now } :: l₂ ∧
      studentOpenFor reg d x = true ∧ x.time_in = t ∧
      (∀ y ∈ l₁, studentOpenFor reg d y = true → y.time_in ≤ t) ∧
      (∀ y ∈ l₂, studentOpenFor reg d y = true → y.time_in ≤ t) := by
  induction l generalizing t l' with
  | nil => exact Option.noConfusion h
  | cons x xs ih =>
    cases hx : closeLatestStudent reg d now xs with
    | none =>
      rw [closeLatestStudent, hx] at h
      dsimp only at h
      have hxs_all : ∀ y ∈ xs, studentOpenFor reg d y = false :=
        (closeLatestStudent_none_iff reg d now xs).mp hx
      by_cases hopen : studentOpenFor reg d x = true
      · rw [if_pos hopen] at h
        have h' := Option.some.inj h
        have ht : x.time_in = t := congrArg Prod.fst h'
        have hl : ({ x with time_out := some now } :: xs) = l' := congrArg Prod.snd h'
        refine ⟨[], x, xs, rfl, hl.symm, hopen, ht, ?_, ?_⟩
        · intro y hy
          exact absurd hy (List.not_mem_nil y)
        · intro y hy hyopen
          rw [hxs_all y hy] at hyopen
          exact Bool.noConfusion hyopen
      · rw [if_neg hopen] at h
        exact Option.noConfusion h
    | some p =>
      obtain ⟨t₀, xs'⟩ := p
      rw [closeLatestStudent, hx] at h
      dsimp only at h
      obtain ⟨m₁, z, m₂, hxs_eq, hxs'_eq, hzopen, hzt, hb₁, hb₂⟩ := ih hx
      by_cases hcond : (studentOpenFor reg d x && decide (t₀ < x.time_in)) = true
      · rw [if_pos hcond] at h
        have h' := Option.some.inj h
        have ht : x.time_in = t := congrArg Prod.fst h'
        have hl : ({ x with time_out := some now } :: xs) = l' := congrArg Prod.snd h'
        have hopen : studentOpenFor reg d x = true := ((Bool.and_eq_true _ _).mp hcond).1
        have hlt : t₀ < x.time_in :=
          of_decide_eq_true ((Bool.and_eq_true _ _).mp hcond).2
        have htt : t₀ < t := by rw [← ht]; exact hlt
        refine ⟨[], x, xs, rfl, hl.symm, hopen, ht, ?_, ?_⟩
        · intro y hy
          exact absurd hy (List.not_mem_nil y)
        · intro y hy hyopen
          rw [hxs_eq] at hy
          rcases List.mem_append.mp hy with hy1 | hy2
          · exact le_trans (hb₁ y hy1 hyopen) (le_of_lt htt)
          · rcases List.mem_cons.mp hy2 with hyz | hy3
            · have hyt : y.time_in = t₀ := by rw [hyz]; exact hzt
              rw [hyt]
              exact le_of_lt htt
            · exact le_trans (hb₂ y hy3 hyopen) (le_of_lt htt)
      · rw [if_neg hcond] at h
        have h' := Option.some.inj h
        have ht : t₀ = t := congrArg Prod.fst h'
        have hl : (x :: xs') = l' := congrArg Prod.snd h'
        subst ht
        refine ⟨x :: m₁, z, m₂, ?_, ?_, hzopen, hzt, ?_, hb₂⟩
        · rw [hxs_eq]
          rfl
        · rw [← hl, hxs'_eq]
          rfl
        · intro y hy hyopen
          rcases List.mem_cons.mp hy with hyx | hym
          · have hox : studentOpenFor reg d x = true := by rw [← hyx]; exact hyopen
            have hnlt : ¬ t₀ < x.time_in := by
              intro hlt
              exact hcond (by rw [hox, decide_eq_true hlt]; rfl)
            rw [hyx]
            exact Nat.le_of_not_lt hnlt
          · exact hb₁ y hym hyopen

theorem closeLatestStaff_some {staff : String} {d now : Nat}
    {l : List StaffRecord} {t : Nat} {l' : List StaffRecord}
    (h : closeLatestStaff staff d now l = some (t, l')) :
    ∃ l₁ x l₂, l = l₁ ++ x :: l₂ ∧
      l' = l₁ ++ { x with time_out := some now } :: l₂ ∧
      staffOpenFor staff d x = true ∧ x.time_in = t ∧
      (∀ y ∈ l₁, staffOpenFor staff d y = true → y.time_in ≤ t) ∧
      (∀ y ∈ l₂, staffOpenFor staff d y = true → y.time_in ≤ t) := by
  induction l generalizing t l' with
  | nil => exact Option.noConfusion h
  | cons x xs ih =>
    cases hx : closeLatestStaff staff d now xs with
    | none =>
      rw [closeLatestStaff, hx] at h
      dsimp only at h
      have hxs_all : ∀ y ∈ xs, staffOpenFor staff d y = false :=
        (closeLatestStaff_none_iff staff d now xs).mp hx
      by_cases hopen : staffOpenFor staff d x = true
      · rw [if_pos hopen] at h
        have h' := Option.some.inj h
        have ht : x.time_in = t := congrArg Prod.fst h'
        have hl : ({ x with time_out := some now } :: xs) = l' := congrArg Prod.snd h'
        refine ⟨[], x, xs, rfl, hl.symm, hopen, ht, ?_, ?_⟩
        · intro y hy
          exact absurd hy (List.not_mem_nil y)
        · intro y hy hyopen
          rw [hxs_all y hy] at hyopen
          exact Bool.noConfusion hyopen
      · rw [if_neg hopen] at h
        exact Option.noConfusion h
    | some p =>
      obtain ⟨t₀, xs'⟩ := p
      rw [closeLatestStaff, hx] at h
      dsimp only at h
      obtain ⟨m₁, z, m₂, hxs_eq, hxs'_eq, hzopen, hzt, hb₁, hb₂⟩ := ih hx
      by_cases hcond : (staffOpenFor staff d x && decide (t₀ < x.time_in)) = true
      · rw [if_pos hcond] at h
        have h' := Option.some.inj h
        have ht : x.time_in = t := congrArg Prod.fst h'
        have hl : ({ x with time_out := some now } :: xs) = l' := congrArg Prod.snd h'
        have hopen : staffOpenFor staff d x = true := ((Bool.and_eq_true _ _).mp hcond).1
        have hlt : t₀ < x.time_in :=
          of_decide_eq_true ((Bool.and_eq_true _ _).mp hcond).2
        have htt : t₀ < t := by rw [← ht]; exact hlt
        refine ⟨[], x, xs, rfl, hl.symm, hopen, ht, ?_, ?_⟩
        · intro y hy
          exact absurd hy (List.not_mem_nil y)
        · intro y hy hyopen
          rw [hxs_eq] at hy
          rcases List.mem_append.mp hy with hy1 | hy2
          · exact le_trans (hb₁ y hy1 hyopen) (le_of_lt htt)
          · rcases List.mem_cons.mp hy2 with hyz | hy3
            · have hyt : y.time_in = t₀ := by rw [hyz]; exact hzt
              rw [hyt]
              exact le_of_lt htt
            · exact le_trans (hb₂ y hy3 hyopen) (le_of_lt htt)
      · rw [if_neg hcond] at h
        have h' := Option.some.inj h
        have ht : t₀ = t := congrArg Prod.fst h'
        have hl : (x :: xs') = l' := congrArg Prod.snd h'
        subst ht
        refine ⟨x :: m₁, z, m₂, ?_, ?_, hzopen, hzt, ?_, hb₂⟩
        · rw [hxs_eq]
          rfl
        · rw [← hl, hxs'_eq]
          rfl
        · intro y hy hyopen
          rcases List.mem_cons.mp hy with hyx | hym
          · have hox : staffOpenFor staff d x = true := by rw [← hyx]; exact hyopen
            have hnlt : ¬ t₀ < x.time_in := by
              intro hlt
              exact hcond (by rw [hox, decide_eq_true hlt]; rfl)
            rw [hyx]
            exact Nat.le_of_not_lt hnlt
          · exact hb₁ y hym hyopen

theorem mark_student_entry_staffRecords (reg : String) (d now : Nat) (s : Store) :
    (mark_student_entry reg d now s).2.staffRecords = s.staffRecords := by
  unfold mark_student_entry
  split <;> rfl

theorem mark_student_exit_staffRecords (reg : String) (d now : Nat) (s : Store) :
    (mark_student_exit reg d now s).2.staffRecords = s.staffRecords := by
  unfold mark_student_exit
  cases hc : closeLatestStudent reg d now s.studentSessions with
  | none => rfl
  | some p =>
    obtain ⟨t, l⟩ := p
    rfl

theorem mark_student_exit_nextStudentId (reg : String) (d now : Nat) (s : Store) :
    (mark_student_exit reg d now s).2.nextStudentId = s.nextStudentId := by
  unfold mark_student_exit
  cases hc : closeLatestStudent reg d now s.studentSessions with
  | none => rfl
  | some p =>
    obtain ⟨t, l⟩ := p
    rfl

theorem mark_student_exit_nextStaffId (reg : String) (d now : Nat) (s : Store) :
    (mark_student_exit reg d now s).2.nextStaffId = s.nextStaffId := by
  unfold mark_student_exit
  cases hc : closeLatestStudent reg d now s.studentSessions with
  | none => rfl
  | some p =>
    obtain ⟨t, l⟩ := p
    rfl

theorem mark_staff_entry_studentSessions (staff hour : String) (d now : Nat) (s : Store) :
    (mark_staff_entry staff hour d now s).2.studentSessions = s.studentSessions := by
  unfold mark_staff_entry
  split <;> rfl

theorem mark_staff_exit_studentSessions (staff : String) (d now : Nat) (s : Store) :
    (mark_staff_exit staff d now s).2.studentSessions = s.studentSessions := by
  unfold mark_staff_exit
  cases hc : closeLatestStaff staff d now s.staffRecords with
  | none => rfl
  | some p =>
    obtain ⟨t, l⟩ := p
    rfl

theorem I1_mark_student_entry (reg : String) (d now : Nat) (s : Store) (h : I1 s) :
    I1 (mark_student_entry reg d now s).2 := by
  unfold mark_student_entry
  by_cases he : (s.studentSessions.filter (studentOpenFor reg d)).isEmpty = true
  · rw [if_pos he]
    intro r dk
    unfold openStudentCount
    dsimp only
    rw [List.filter_append, List.length_append]
    by_cases hop : studentOpenFor r dk ⟨s.nextStudentId, reg, d, now, none⟩ = true
    · obtain ⟨h1', h2', _⟩ := of_decide_eq_true hop
      subst h1'
      subst h2'
      have hnil : s.studentSessions.filter (studentOpenFor reg d) = [] :=
        List.isEmpty_iff.mp he
      rw [hnil]
      simp [hop]
    · rw [List.filter_cons_of_neg hop]
      simpa [openStudentCount] using h r dk
  · rw [if_neg he]
    exact h

theorem I1_mark_student_exit (reg : String) (d now : Nat) (s : Store) (h : I1 s) :
    I1 (mark_student_exit reg d now s).2 := by
  unfold mark_student_exit
  cases hc : closeLatestStudent reg d now s.studentSessions with
  | none => exact h
  | some p =>
    obtain ⟨t, l⟩ := p
    obtain ⟨l₁, x, l₂, hl_eq, hl'_eq, hxopen, _, _, _⟩ := closeLatestStudent_some hc
    intro r dk
    unfold openStudentCount
    dsimp only
    rw [hl'_eq, List.filter_append, List.length_append]
    have hxc : ¬ studentOpenFor r dk { x with time_out := some now } = true := by
      simp [studentOpenFor]
    rw [List.filter_cons_of_neg hxc]
    have hs := h r dk
    unfold openStudentCount at hs
    rw [hl_eq, List.filter_append, List.length_append] at hs
    by_cases hox : studentOpenFor r dk x = true
    · rw [List.filter_cons_of_pos hox, List.length_cons] at hs
      omega
    · rw [List.filter_cons_of_neg hox] at hs
      omega

theorem I1_mark_staff_entry (staff hour : String) (d now : Nat) (s : Store) (h : I1 s) :
    I1 (mark_staff_entry staff hour d now s).2 := by
  intro r dk
  unfold openStudentCount
  rw [mark_staff_entry_studentSessions]
  exact h r dk

theorem I1_mark_staff_exit (staff : String) (d now : Nat) (s : Store) (h : I1 s) :
    I1 (mark_staff_exit staff d now s).2 := by
  intro r dk
  unfold openStudentCount
  rw [mark_staff_exit_studentSessions]
  exact h r dk

theorem I1_run_daily_cleanup (d : Nat) (s : Store) (h : I1 s) :
    I1 (run_daily_cleanup d s) := by
  intro r dk
  unfold run_daily_cleanup cleanup_student_open_sessions cleanup_staff_open_sessions
    openStudentCount
  dsimp only
  exact le_trans (length_filter_filter_le _ _ _) (h r dk)

theorem I1_applyOp (op : Op) (s : Store) (h : I1 s) : I1 (applyOp op s) := by
  cases op with
  | studentEntry reg d n => exact I1_mark_student_entry reg d n s h
  | studentExit reg d n => exact I1_mark_student_exit reg d n s h
  | staffEntry st hr d n => exact I1_mark_staff_entry st hr d n s h
  | staffExit st d n => exact I1_mark_staff_exit st d n s h
  | dailyCleanup d => exact I1_run_daily_cleanup d s h

theorem I2_mark_student_entry (reg : String) (d now : Nat) (s : Store) (h : I2 s) :
    I2 (mark_student_entry reg d now s).2 := by
  intro st dk hr
  unfold staffHourCount
  rw [mark_student_entry_staffRecords]
  exact h st dk hr

theorem I2_mark_student_exit (reg : String) (d now : Nat) (s : Store) (h : I2 s) :
    I2 (mark_student_exit reg d now s).2 := by
  intro st dk hr
  unfold staffHourCount
  rw [mark_student_exit_staffRecords]
  exact h st dk hr

theorem I2_mark_staff_entry (staff hour : String) (d now : Nat) (s : Store) (h : I2 s) :
    I2 (mark_staff_entry staff hour d now s).2 := by
  unfold mark_staff_entry
  by_cases he : (s.staffRecords.filter (staffHourFor staff hour d)).isEmpty = true
  · rw [if_pos he]
    intro st dk hr
    unfold staffHourCount
    dsimp only
    rw [List.filter_append, List.length_append]
    by_cases hop :
        staffHourFor st hr dk ⟨s.nextStaffId, staff, d, hour, now, none, StaffStatus.Present⟩ = true
    · obtain ⟨h1', h2', h3'⟩ := of_decide_eq_true hop
      subst h1'
      subst h2'
      subst h3'
      have hnil : s.staffRecords.filter (staffHourFor staff hour d) = [] :=
        List.isEmpty_iff.mp he
      rw [hnil]
      simp [hop]
    · rw [List.filter_cons_of_neg hop]
      simpa [staffHourCount] using h st dk hr
  · rw [if_neg he]
    exact h

theorem I2_mark_staff_exit (staff : String) (d now : Nat) (s : Store) (h : I2 s) :
    I2 (mark_staff_exit staff d now s).2 := by
  unfold mark_staff_exit
  cases hc : closeLatestStaff staff d now s.staffRecords with
  | none => exact h
  | some p =>
    obtain ⟨t, l⟩ := p
    obtain ⟨l₁, x, l₂, hl_eq, hl'_eq, _, _, _, _⟩ := closeLatestStaff_some hc
    intro st dk hr
    unfold staffHourCount
    dsimp only
    rw [hl'_eq, List.filter_append, List.length_append]
    have hs := h st dk hr
    unfold staffHourCount at hs
    rw [hl_eq, List.filter_append, List.length_append] at hs
    have hkey : staffHourFor st hr dk { x with time_out := some now } =
        staffHourFor st hr dk x := rfl
    by_cases hox : staffHourFor st hr dk x = true
    · rw [List.filter_cons_of_pos (by rw [hkey]; exact hox), List.length_cons]
      rw [List.filter_cons_of_pos hox, List.length_cons] at hs
      omega
    · rw [List.filter_cons_of_neg (by rw [hkey]; exact hox)]
      rw [List.filter_cons_of_neg hox] at hs
      omega

theorem staffHourFor_cleanupRow (st hr : String) (dk d : Nat) (x : StaffRecord) :
    staffHourFor st hr dk (staffCleanupRow d x) = staffHourFor st hr dk x := by
  unfold staffCleanupRow
  by_cases hcx : x.date = d ∧ x.time_out = none
  · rw [if_pos hcx]
    rfl
  · rw [if_neg hcx]

theorem I2_run_daily_cleanup (d : Nat) (s : Store) (h : I2 s) :
    I2 (run_daily_cleanup d s) := by
  intro st dk hr
  have hs := h st dk hr
  unfold staffHourCount at hs ⊢
  unfold run_daily_cleanup cleanup_student_open_sessions cleanup_staff_open_sessions
  dsimp only
  rw [length_filter_map_eq (staffCleanupRow d) (staffHourFor st hr dk)
    (staffHourFor_cleanupRow st hr dk d)]
  exact hs

theorem I2_applyOp (op : Op) (s : Store) (h : I2 s) : I2 (applyOp op s) := by
  cases op with
  | studentEntry reg d n => exact I2_mark_student_entry reg d n s h
  | studentExit reg d n => exact I2_mark_student_exit reg d n s h
  | staffEntry st hr d n => exact I2_mark_staff_entry st hr d n s h
  | staffExit st d n => exact I2_mark_staff_exit st d n s h
  | dailyCleanup d => exact I2_run_daily_cleanup d s h

theorem studentOpenFilter_isEmpty_iff (reg : String) (d : Nat) (s : Store) :
    (s.studentSessions.filter (studentOpenFor reg d)).isEmpty = true ↔
      ∀ y ∈ s.studentSessions, ¬(y.reg_no = reg ∧ y.date = d ∧ y.time_out = none) := by
  rw [List.isEmpty_iff]
  constructor
  · intro hnil y hy hprop
    have : y ∈ s.studentSessions.filter (studentOpenFor reg d) :=
      List.mem_filter.mpr ⟨hy, decide_eq_true hprop⟩
    rw [hnil] at this
    exact absurd this (List.not_mem_nil y)
  · intro hall
    by_cases hf : s.studentSessions.filter (studentOpenFor reg d) = []
    · exact hf
    · obtain ⟨y, hy⟩ := List.exists_mem_of_ne_nil _ hf
      have := List.mem_filter.mp hy
      exact absurd (of_decide_eq_true this.2) (hall y this.1)

theorem staffHourFilter_isEmpty_iff (staff hour : String) (d : Nat) (s : Store) :
    (s.staffRecords.filter (staffHourFor staff hour d)).isEmpty = true ↔
      ∀ y ∈ s.staffRecords, ¬(y.staff_id = staff ∧ y.date = d ∧ y.hour = hour) := by
  rw [List.isEmpty_iff]
  constructor
  · intro hnil y hy hprop
    have : y ∈ s.staffRecords.filter (staffHourFor staff hour d) :=
      List.mem_filter.mpr ⟨hy, decide_eq_true hprop⟩
    rw [hnil] at this
    exact absurd this (List.not_mem_nil y)
  · intro hall
    by_cases hf : s.staffRecords.filter (staffHourFor staff hour d) = []
    · exact hf
    · obtain ⟨y, hy⟩ := List.exists_mem_of_ne_nil _ hf
      have := List.mem_filter.mp hy
      exact absurd (of_decide_eq_true this.2) (hall y this.1)

theorem closeLatestStudent_append_single (reg : String) (d now2 : Nat)
    (l : List StudentSession) (hnone : ∀ y ∈ l, studentOpenFor reg d y = false)
    (x : StudentSession) (hx : studentOpenFor reg d x = true) :
    closeLatestStudent reg d now2 (l ++ [x]) =
      some (x.time_in, l ++ [{ x with time_out := some now2 }]) := by
  induction l with
  | nil =>
    simp [closeLatestStudent, hx]
  | cons y l ih =>
    rw [List.cons_append, closeLatestStudent,
      ih (fun z hz => hnone z (List.mem_cons_of_mem y hz))]
    dsimp only
    rw [hnone y (List.mem_cons_self y l), Bool.false_and,
      if_neg (Bool.false_ne_true)]
    rfl

theorem staffCleanupRow_idem (d : Nat) (r : StaffRecord) :
    staffCleanupRow d (staffCleanupRow d r) = staffCleanupRow d r := by
  unfold staffCleanupRow
  by_cases hc : r.date = d ∧ r.time_out = none
  · rw [if_pos hc, if_pos hc]
  · rw [if_neg hc, if_neg hc]

theorem filter_idem {α : Type} (p : α → Bool) (l : List α) :
    (l.filter p).filter p = l.filter p := by
  induction l with
  | nil => rfl
  | cons x xs ih =>
    by_cases h : p x = true
    · rw [List.filter_cons_of_pos h, List.filter_cons_of_pos h, ih]
    · rw [List.filter_cons_of_neg h, ih]

theorem map_cleanup_idem (d : Nat) (l : List StaffRecord) :
    (l.map (staffCleanupRow d)).map (staffCleanupRow d) = l.map (staffCleanupRow d) := by
  rw [List.map_map]
  exact List.map_congr_left (fun r _ => staffCleanupRow_idem d r)

theorem classes_attended_eq_filter_class_dates (reg staff : String) (s : Store) :
    classes_attended reg staff s =
      ((class_dates staff s).filter
        (fun dd => s.studentSessions.any
          (fun u => decide (u.reg_no = reg) && decide (u.date = dd)))).length := by
  unfold classes_attended
  rw [← List.card_toFinset]
  have hnodup : (class_dates staff s).Nodup := List.nodup_dedup _
  have hnodup2 : ((class_dates staff s).filter
      (fun dd => s.studentSessions.any
        (fun u => decide (u.reg_no = reg) && decide (u.date = dd)))).Nodup :=
    hnodup.filter _
  rw [← List.toFinset_card_of_nodup hnodup2]
  apply congrArg Finset.card
  ext a
  simp only [List.mem_toFinset, List.mem_filter, List.mem_map, List.any_eq_true,
    Bool.and_eq_true, decide_eq_true_eq]
  constructor
  · rintro ⟨u, ⟨hmem, hreg, hin⟩, hdate⟩
    exact ⟨hdate ▸ hin, u, hmem, hreg, hdate⟩
  · rintro ⟨hin, u, hmem, hreg, hdate⟩
    exact ⟨u, ⟨hmem, hreg, hdate.symm ▸ hin⟩, hdate⟩

/-! ## Claim theorems -/

/-- C1: starting from a state satisfying invariant I1 (at most one open
StudentSession per (reg_no, date) key), any sequence of controller and
reconciliation operations, in particular markStudentEntry, markStudentExit
and the student reconciliation phase, preserves I1. -/
theorem C1_invariant_I1_preserved (ops : List Op) (s : Store) (h : I1 s) :
    I1 (applyOps ops s) := by
  induction ops generalizing s with
  | nil => exact h
  | cons op ops ih => exact ih (applyOp op s) (I1_applyOp op s h)

theorem C1_invariant_I1_preserved_witness :
    I1 (applyOps [Op.studentEntry "S1" 1 900, Op.studentExit "S1" 1 950,
      Op.dailyCleanup 1] emptyStore) :=
  C1_invariant_I1_preserved _ emptyStore (fun _ _ => Nat.zero_le 1)

/-- C2 counterexample: with two staff records on the same date,
total_classes_held is 1 (the number of distinct dates) while the count of all
records of the staff member is 2, so the claim that total_classes_held equals
the row count is false on this store. -/
theorem C2_total_classes_cex :
    total_classes_held "T1" c2Store = 1 ∧ totalClassesHeldSpec "T1" c2Store = 2 ∧
    total_classes_held "T1" c2Store ≠ totalClassesHeldSpec "T1" c2Store := by
  decide

/-- C2 (amended): total_classes_held equals the number of distinct dates on
which the resolved staff member has at least one StaffAttendanceRecord, and
is therefore at most, not in general equal to, the total record count. -/
theorem C2_total_classes_distinct_dates (staff : String) (s : Store) :
    total_classes_held staff s =
      ((staffRecordsFor staff s).map StaffRecord.date).toFinset.card ∧
    total_classes_held staff s ≤ totalClassesHeldSpec staff s := by
  constructor
  · rw [List.card_toFinset]
    rfl
  · unfold total_classes_held class_dates totalClassesHeldSpec
    calc ((staffRecordsFor staff s).map StaffRecord.date).dedup.length
        ≤ ((staffRecordsFor staff s).map StaffRecord.date).length :=
          (List.dedup_sublist _).length_le
      _ = (staffRecordsFor staff s).length := List.length_map _ _

/-- C3 counterexample: the staff record on date 1 was closed at time 10 and
the student entered only at time 20, so per the spec rule no (date, hour)
pair matches, yet the code counts the date; classes_attended therefore
differs from the spec value on this store. -/
theorem C3_classes_attended_cex :
    classes_attended "S1" "T1" c3Store = 1 ∧
    classesAttendedSpec "S1" "T1" c3Store = 0 ∧
    classes_attended "S1" "T1" c3Store ≠ classesAttendedSpec "S1" "T1" c3Store := by
  decide

/-- C3 (amended): classes_attended equals the number of class dates (distinct
dates with some record of the staff) on which the student has at least one
session row, with no hour pairing and no time_in/time_out comparison; with 4
classes held and sessions on 3 of those dates, the report shows 3 of 4
classes and the percentage is exactly 75. -/
theorem C3_classes_attended_dates (reg staff : String) (s : Store) :
    (classes_attended reg staff s =
      ((class_dates staff s).filter
        (fun dd => s.studentSessions.any
          (fun u => decide (u.reg_no = reg) && decide (u.date = dd)))).length) ∧
    classes_attended "S1" "T1" c3Scenario = 3 ∧
    total_classes_held "T1" c3Scenario = 4 ∧
    attendance_percentage (classes_attended "S1" "T1" c3Scenario)
      (total_classes_held "T1" c3Scenario) = 75 := by
  refine ⟨classes_attended_eq_filter_class_dates reg staff s, by decide, by decide, ?_⟩
  have h1 : classes_attended "S1" "T1" c3Scenario = 3 := by decide
  have h2 : total_classes_held "T1" c3Scenario = 4 := by decide
  rw [h1, h2]
  norm_num [attendance_percentage]

/-- C4: invariant I2 (at most one StaffAttendanceRecord per
(staff_id, date, hour)) is preserved by every operation sequence;
markStaffEntry on a triple that already has a record fails with the
duplicate-hour error and inserts nothing, and on a fresh triple inserts
exactly one row with status Present and the given time_in. -/
theorem C4_invariant_I2_staff_entry :
    (∀ (ops : List Op) (s : Store), I2 s → I2 (applyOps ops s)) ∧
    (∀ (staff hour : String) (d now : Nat) (s : Store),
      (∃ r ∈ s.staffRecords, r.staff_id = staff ∧ r.date = d ∧ r.hour = hour) →
      mark_staff_entry staff hour d now s =
        ((false, "Already marked entry for this hour today."), s)) ∧
    (∀ (staff hour : String) (d now : Nat) (s : Store),
      (∀ r ∈ s.staffRecords, ¬(r.staff_id = staff ∧ r.date = d ∧ r.hour = hour)) →
      mark_staff_entry staff hour d now s =
        ((true, "Entry for hour marked."),
          { s with
            staffRecords := s.staffRecords ++
              [⟨s.nextStaffId, staff, d, hour, now, none, StaffStatus.Present⟩],
            nextStaffId := s.nextStaffId + 1 })) := by
  refine ⟨?_, ?_, ?_⟩
  · intro ops s h
    induction ops generalizing s with
    | nil => exact h
    | cons op ops ih => exact ih (applyOp op s) (I2_applyOp op s h)
  · intro staff hour d now s hdup
    have hne : ¬ (s.staffRecords.filter (staffHourFor staff hour d)).isEmpty = true := by
      intro he
      obtain ⟨r, hmem, hr⟩ := hdup
      exact (staffHourFilter_isEmpty_iff staff hour d s).mp he r hmem hr
    unfold mark_staff_entry
    rw [if_neg hne]
  · intro staff hour d now s hfresh
    have he : (s.staffRecords.filter (staffHourFor staff hour d)).isEmpty = true :=
      (staffHourFilter_isEmpty_iff staff hour d s).mpr hfresh
    unfold mark_staff_entry
    rw [if_pos he]

theorem C4_invariant_I2_staff_entry_witness :
    I2 (applyOps [Op.staffEntry "T1" "Hour 1" 1 900, Op.staffExit "T1" 1 950] emptyStore) ∧
    mark_staff_entry "T1" "Hour 1" 1 2 c2Store =
      ((false, "Already marked entry for this hour today."), c2Store) ∧
    mark_staff_entry "T2" "Hour 1" 1 2 emptyStore =
      ((true, "Entry for hour marked."),
        { emptyStore with
          staffRecords := emptyStore.staffRecords ++
            [⟨emptyStore.nextStaffId, "T2", 1, "Hour 1", 2, none, StaffStatus.Present⟩],
          nextStaffId := emptyStore.nextStaffId + 1 }) :=
  ⟨C4_invariant_I2_staff_entry.1 _ emptyStore (fun _ _ _ => Nat.zero_le 1),
   C4_invariant_I2_staff_entry.2.1 "T1" "Hour 1" 1 2 c2Store (by decide),
   C4_invariant_I2_staff_entry.2.2 "T2" "Hour 1" 1 2 emptyStore (by decide)⟩

/-- C5: markStudentExit and markStaffExit on an identity with no open session
for the given day fail with the no-open-session (NOT_FOUND class) result and
leave the store entirely unchanged. -/
theorem C5_exit_requires_entry (reg staff : String) (d now : Nat) (s : Store) :
    ((∀ y ∈ s.studentSessions, ¬(y.reg_no = reg ∧ y.date = d ∧ y.time_out = none)) →
      mark_student_exit reg d now s =
        ((false, "No open entry found for today. You have not entered (or already exited)."),
          s)) ∧
    ((∀ y ∈ s.staffRecords, ¬(y.staff_id = staff ∧ y.date = d ∧ y.time_out = none)) →
      mark_staff_exit staff d now s = ((false, "No open entry found for today."), s)) := by
  constructor
  · intro hall
    have hnone : closeLatestStudent reg d now s.studentSessions = none :=
      (closeLatestStudent_none_iff reg d now s.studentSessions).mpr
        (fun y hy => decide_eq_false (hall y hy))
    unfold mark_student_exit
    rw [hnone]
  · intro hall
    have hnone : closeLatestStaff staff d now s.staffRecords = none :=
      (closeLatestStaff_none_iff staff d now s.staffRecords).mpr
        (fun y hy => decide_eq_false (hall y hy))
    unfold mark_staff_exit
    rw [hnone]

theorem C5_exit_requires_entry_witness :
    mark_student_exit "S1" 1 30 c5Store =
      ((false, "No open entry found for today. You have not entered (or already exited)."),
        c5Store) ∧
    mark_staff_exit "T1" 1 30 c5Store = ((false, "No open entry found for today."), c5Store) :=
  ⟨(C5_exit_requires_entry "S1" "T1" 1 30 c5Store).1 (by decide),
   (C5_exit_requires_entry "S1" "T1" 1 30 c5Store).2 (by decide)⟩

/-- C6: reconciliation is idempotent for a given date: running the cleanup
job (staff phase followed by student phase) twice on the same date yields
exactly the same store as running it once. -/
theorem C6_reconciliation_idempotent (d : Nat) (s : Store) :
    run_daily_cleanup d (run_daily_cleanup d s) = run_daily_cleanup d s := by
  unfold run_daily_cleanup cleanup_student_open_sessions cleanup_staff_open_sessions
  dsimp only
  rw [filter_idem, map_cleanup_idem]

/-- C7: reconciliation for date d sets status Absent on exactly the day's
open staff records (closed records — which keep their Present status — and
records of other dates are unchanged in every field), deletes exactly the
day's open student sessions, and changes nothing else in the store. -/
theorem C7_reconciliation_frame (d : Nat) (s : Store) :
    (run_daily_cleanup d s).staffRecords.length = s.staffRecords.length ∧
    (∀ i (hi : i < s.staffRecords.length)
        (hi2 : i < (run_daily_cleanup d s).staffRecords.length),
      ((s.staffRecords.get ⟨i, hi⟩).date = d ∧
          (s.staffRecords.get ⟨i, hi⟩).time_out = none →
        (run_daily_cleanup d s).staffRecords.get ⟨i, hi2⟩ =
          { s.staffRecords.get ⟨i, hi⟩ with status := StaffStatus.Absent }) ∧
      (¬((s.staffRecords.get ⟨i, hi⟩).date = d ∧
          (s.staffRecords.get ⟨i, hi⟩).time_out = none) →
        (run_daily_cleanup d s).staffRecords.get ⟨i, hi2⟩ = s.staffRecords.get ⟨i, hi⟩)) ∧
    List.Sublist (run_daily_cleanup d s).studentSessions s.studentSessions ∧
    (∀ x : StudentSession, x ∈ (run_daily_cleanup d s).studentSessions ↔
      x ∈ s.studentSessions ∧ ¬(x.date = d ∧ x.time_out = none)) ∧
    (run_daily_cleanup d s).nextStudentId = s.nextStudentId ∧
    (run_daily_cleanup d s).nextStaffId = s.nextStaffId := by
  refine ⟨List.length_map _ _, ?_, ?_, ?_, rfl, rfl⟩
  · intro i hi hi2
    have hget : (run_daily_cleanup d s).staffRecords.get ⟨i, hi2⟩ =
        staffCleanupRow d (s.staffRecords.get ⟨i, hi⟩) := by
      show (s.staffRecords.map (staffCleanupRow d)).get ⟨i, hi2⟩ = _
      simp [List.get_eq_getElem, List.getElem_map]
    constructor
    · intro hcond
      rw [hget]
      unfold staffCleanupRow
      rw [if_pos hcond]
    · intro hcond
      rw [hget]
      unfold staffCleanupRow
      rw [if_neg hcond]
  · exact List.filter_sublist _
  · intro x
    show x ∈ s.studentSessions.filter _ ↔ _
    rw [List.mem_filter]
    simp only [Bool.not_eq_true', decide_eq_false_iff_not]

theorem C7_reconciliation_frame_witness :
    (run_daily_cleanup 2 c7Store).staffRecords.get ⟨0, by decide⟩ =
      { c7Store.staffRecords.get ⟨0, by decide⟩ with status := StaffStatus.Absent } ∧
    (run_daily_cleanup 2 c7Store).staffRecords.get ⟨1, by decide⟩ =
      c7Store.staffRecords.get ⟨1, by decide⟩ ∧
    ((⟨1, "S1", 1, 10, none⟩ : StudentSession) ∈ (run_daily_cleanup 2 c7Store).studentSessions ↔
      (⟨1, "S1", 1, 10, none⟩ : StudentSession) ∈ c7Store.studentSessions ∧
        ¬((1 : Nat) = 2 ∧ (none : Option Nat) = none)) :=
  ⟨((C7_reconciliation_frame 2 c7Store).2.1 0 (by decide) (by decide)).1 (by decide),
   ((C7_reconciliation_frame 2 c7Store).2.1 1 (by decide) (by decide)).2 (by decide),
   (C7_reconciliation_frame 2 c7Store).2.2.2.1 ⟨1, "S1", 1, 10, none⟩⟩

/-- C8 counterexample: in c8Store both records of staff T1 on date 7 are
open and the most recently created one is the second row (id 2), which has
the smaller time_in; markStaffExit closes the first row (id 1, the greater
time_in) and leaves the most recently created row open, so the claim that
the most-recently-created open row is closed is false on this store. -/
theorem C8_staff_exit_cex :
    (mark_staff_exit "T1" 7 5 c8Store).2.staffRecords =
      [⟨1, "T1", 7, "Hour 1", 2, some 5, StaffStatus.Present⟩,
       ⟨2, "T1", 7, "Hour 2", 1, none, StaffStatus.Present⟩] ∧
    ¬((mark_staff_exit "T1" 7 5 c8Store).2.staffRecords =
      [⟨1, "T1", 7, "Hour 1", 2, none, StaffStatus.Present⟩,
       ⟨2, "T1", 7, "Hour 2", 1, some 5, StaffStatus.Present⟩]) := by
  decide

/-- C8 (amended): for every state with at least one open record for
(staff_id, today), markStaffExit succeeds and sets time_out = now on exactly
one row: an open row of that key whose time_in is maximal among the open
rows (the most recently opened row; this coincides with the most recently
created one whenever creation order agrees with time_in order), leaving
every other record and the student table unchanged; in Scenario B, with
Hour 1 entered at 900 and Hour 2 at 925, the single exit closes the Hour 2
row, the most recently created of the two. -/
theorem C8_staff_exit_closes_latest :
    (∀ (staff : String) (d now : Nat) (s : Store),
      (∃ r ∈ s.staffRecords, r.staff_id = staff ∧ r.date = d ∧ r.time_out = none) →
      (mark_staff_exit staff d now s).1.1 = true ∧
      ∃ l₁ x l₂, s.staffRecords = l₁ ++ x :: l₂ ∧
        (mark_staff_exit staff d now s).2.staffRecords =
          l₁ ++ { x with time_out := some now } :: l₂ ∧
        x.staff_id = staff ∧ x.date = d ∧ x.time_out = none ∧
        (∀ y ∈ l₁, y.staff_id = staff → y.date = d → y.time_out = none →
          y.time_in ≤ x.time_in) ∧
        (∀ y ∈ l₂, y.staff_id = staff → y.date = d → y.time_out = none →
          y.time_in ≤ x.time_in) ∧
        (mark_staff_exit staff d now s).2.studentSessions = s.studentSessions) ∧
    (mark_staff_exit "T1" 7 1000
      ((mark_staff_entry "T1" "Hour 2" 7 925
        ((mark_staff_entry "T1" "Hour 1" 7 900 emptyStore).2)).2)).2.staffRecords =
      [⟨0, "T1", 7, "Hour 1", 900, none, StaffStatus.Present⟩,
       ⟨1, "T1", 7, "Hour 2", 925, some 1000, StaffStatus.Present⟩] := by
  constructor
  · intro staff d now s hex
    cases hc : closeLatestStaff staff d now s.staffRecords with
    | none =>
      exfalso
      obtain ⟨r, hmem, hr⟩ := hex
      have hfalse := (closeLatestStaff_none_iff staff d now s.staffRecords).mp hc r hmem
      rw [staffOpenFor, decide_eq_true hr] at hfalse
      exact Bool.noConfusion hfalse
    | some p =>
      obtain ⟨t, l⟩ := p
      obtain ⟨l₁, x, l₂, hl_eq, hl2_eq, hxopen, hxt, hb₁, hb₂⟩ := closeLatestStaff_some hc
      obtain ⟨hx1, hx2, hx3⟩ := of_decide_eq_true hxopen
      constructor
      · unfold mark_staff_exit
        rw [hc]
      · refine ⟨l₁, x, l₂, hl_eq, ?_, hx1, hx2, hx3, ?_, ?_,
          mark_staff_exit_studentSessions staff d now s⟩
        · unfold mark_staff_exit
          rw [hc]
          exact hl2_eq
        · intro y hy h1 h2 h3
          have hby := hb₁ y hy (decide_eq_true ⟨h1, h2, h3⟩)
          rw [hxt]
          exact hby
        · intro y hy h1 h2 h3
          have hby := hb₂ y hy (decide_eq_true ⟨h1, h2, h3⟩)
          rw [hxt]
          exact hby
  · decide

theorem C8_staff_exit_closes_latest_witness :
    (mark_staff_exit "T1" 7 5 c8Store).1.1 = true :=
  (C8_staff_exit_closes_latest.1 "T1" 7 5 c8Store (by decide)).1

/-- C9: markStudentEntry fails (with the duplicate-open-session message and
an unchanged store) iff an open session for (reg_no, today) already exists;
otherwise it succeeds and appends exactly one open row with time_in = now
and time_out = NULL, and a subsequent markStudentExit on the same day closes
exactly that row, setting its time_out and preserving its time_in. -/
theorem C9_student_entry_lifecycle (reg : String) (d now now2 : Nat) (s : Store) :
    ((mark_student_entry reg d now s).1.1 = false ↔
      ∃ y ∈ s.studentSessions, y.reg_no = reg ∧ y.date = d ∧ y.time_out = none) ∧
    ((mark_student_entry reg d now s).1.1 = false →
      mark_student_entry reg d now s =
        ((false, "You have already marked ENTRY and have not EXITED yet for today."), s)) ∧
    ((∀ y ∈ s.studentSessions, ¬(y.reg_no = reg ∧ y.date = d ∧ y.time_out = none)) →
      mark_student_entry reg d now s =
        ((true, "Entry marked."),
          { s with
            studentSessions := s.studentSessions ++ [⟨s.nextStudentId, reg, d, now, none⟩],
            nextStudentId := s.nextStudentId + 1 }) ∧
      mark_student_exit reg d now2 (mark_student_entry reg d now s).2 =
        ((true, "Exit marked."),
          { s with
            studentSessions :=
              s.studentSessions ++ [⟨s.nextStudentId, reg, d, now, some now2⟩],
            nextStudentId := s.nextStudentId + 1 })) := by
  by_cases he : (s.studentSessions.filter (studentOpenFor reg d)).isEmpty = true
  · have hall := (studentOpenFilter_isEmpty_iff reg d s).mp he
    have hentry : mark_student_entry reg d now s =
        ((true, "Entry marked."),
          { s with
            studentSessions := s.studentSessions ++ [⟨s.nextStudentId, reg, d, now, none⟩],
            nextStudentId := s.nextStudentId + 1 }) := by
      unfold mark_student_entry
      rw [if_pos he]
    refine ⟨?_, ?_, ?_⟩
    · rw [hentry]
      constructor
      · intro hfalse
        exact Bool.noConfusion hfalse
      · rintro ⟨y, hy, hprop⟩
        exact absurd hprop (hall y hy)
    · rw [hentry]
      intro hfalse
      exact Bool.noConfusion hfalse
    · intro _
      refine ⟨hentry, ?_⟩
      rw [hentry]
      have hnone : ∀ y ∈ s.studentSessions, studentOpenFor reg d y = false :=
        fun y hy => decide_eq_false (hall y hy)
      have hx : studentOpenFor reg d ⟨s.nextStudentId, reg, d, now, none⟩ = true :=
        decide_eq_true ⟨rfl, rfl, rfl⟩
      unfold mark_student_exit
      dsimp only
      rw [closeLatestStudent_append_single reg d now2 s.studentSessions hnone _ hx]
  · have hbranch : mark_student_entry reg d now s =
        ((false, "You have already marked ENTRY and have not EXITED yet for today."), s) := by
      unfold mark_student_entry
      rw [if_neg he]
    have hex : ∃ y ∈ s.studentSessions, y.reg_no = reg ∧ y.date = d ∧ y.time_out = none := by
      by_contra hno
      push_neg at hno
      exact he ((studentOpenFilter_isEmpty_iff reg d s).mpr
        (fun y hy hp => hno y hy hp.1 hp.2.1 hp.2.2))
    refine ⟨?_, ?_, ?_⟩
    · rw [hbranch]
      exact ⟨fun _ => hex, fun _ => rfl⟩
    · rw [hbranch]
      intro _
      rfl
    · intro hall
      exact absurd ((studentOpenFilter_isEmpty_iff reg d s).mpr hall) he

theorem C9_student_entry_lifecycle_witness :
    mark_student_exit "S1" 1 950 ((mark_student_entry "S1" 1 900 emptyStore).2) =
      ((true, "Exit marked."),
        { emptyStore with
          studentSessions :=
            emptyStore.studentSessions ++ [⟨emptyStore.nextStudentId, "S1", 1, 900, some 950⟩],
          nextStudentId := emptyStore.nextStudentId + 1 }) :=
  ((C9_student_entry_lifecycle "S1" 1 900 950 emptyStore).2.2 (by decide)).2

/-- C10: on success markStudentExit mutates exactly one row: an open session
of (reg_no, today) with maximal time_in among the open ones; only its
time_out field changes (the update keeps its id, reg_no, date and time_in),
and every other session row, the staff table and the id counters are
unchanged. -/
theorem C10_student_exit_frame (reg : String) (d now : Nat) (s : Store)
    (h : (mark_student_exit reg d now s).1.1 = true) :
    ∃ l₁ x l₂, s.studentSessions = l₁ ++ x :: l₂ ∧
      (mark_student_exit reg d now s).2.studentSessions =
        l₁ ++ { x with time_out := some now } :: l₂ ∧
      x.reg_no = reg ∧ x.date = d ∧ x.time_out = none ∧
      (∀ y ∈ l₁, y.reg_no = reg → y.date = d → y.time_out = none →
        y.time_in ≤ x.time_in) ∧
      (∀ y ∈ l₂, y.reg_no = reg → y.date = d → y.time_out = none →
        y.time_in ≤ x.time_in) ∧
      (mark_student_exit reg d now s).2.staffRecords = s.staffRecords ∧
      (mark_student_exit reg d now s).2.nextStudentId = s.nextStudentId ∧
      (mark_student_exit reg d now s).2.nextStaffId = s.nextStaffId := by
  cases hc : closeLatestStudent reg d now s.studentSessions with
  | none =>
    exfalso
    unfold mark_student_exit at h
    rw [hc] at h
    exact Bool.noConfusion h
  | some p =>
    obtain ⟨t, l⟩ := p
    obtain ⟨l₁, x, l₂, hl_eq, hl2_eq, hxopen, hxt, hb₁, hb₂⟩ := closeLatestStudent_some hc
    obtain ⟨hx1, hx2, hx3⟩ := of_decide_eq_true hxopen
    refine ⟨l₁, x, l₂, hl_eq, ?_, hx1, hx2, hx3, ?_, ?_,
      mark_student_exit_staffRecords reg d now s,
      mark_student_exit_nextStudentId reg d now s,
      mark_student_exit_nextStaffId reg d now s⟩
    · unfold mark_student_exit
      rw [hc]
      exact hl2_eq
    · intro y hy h1 h2 h3
      have hby := hb₁ y hy (decide_eq_true ⟨h1, h2, h3⟩)
      rw [hxt]
      exact hby
    · intro y hy h1 h2 h3
      have hby := hb₂ y hy (decide_eq_true ⟨h1, h2, h3⟩)
      rw [hxt]
      exact hby

theorem C10_student_exit_frame_witness :
    ∃ l₁ x l₂, c7Store.studentSessions = l₁ ++ x :: l₂ ∧
      (mark_student_exit "S1" 1 15 c7Store).2.studentSessions =
        l₁ ++ { x with time_out := some 15 } :: l₂ ∧
      x.reg_no = "S1" ∧ x.date = 1 ∧ x.time_out = none ∧
      (∀ y ∈ l₁, y.reg_no = "S1" → y.date = 1 → y.time_out = none →
        y.time_in ≤ x.time_in) ∧
      (∀ y ∈ l₂, y.reg_no = "S1" → y.date = 1 → y.time_out = none →
        y.time_in ≤ x.time_in) ∧
      (mark_student_exit "S1" 1 15 c7Store).2.staffRecords = c7Store.staffRecords ∧
      (mark_student_exit "S1" 1 15 c7Store).2.nextStudentId = c7Store.nextStudentId ∧
      (mark_student_exit "S1" 1 15 c7Store).2.nextStaffId = c7Store.nextStaffId :=
  C10_student_exit_frame "S1" 1 15 c7Store (by decide)
